import Mathlib

/-!
Pashto voice assistant front end: `src/src/App.js`

A shallow embedding of the `App` component.  React state (`recording`,
`audioBlob`, `messages`, `loading`) and the refs (`mediaRecorderRef`,
`mediaStreamRef`, `recordedChunksRef`) are fields of one `State`; the browser
objects the refs point to (media streams, recorders) live in two small heaps
indexed by natural numbers.  Every handler and promise continuation of the
component is a function on `State`; the event loop is the `step` function over
`Event`, one event per task.

Environment inputs are explicit parameters: the clock reading rendered in a
message header (`now`), the outcome of `fetch` (`FetchOutcome`), the files of
an input change event, and the rounding function of the number type (`fl`).
-/

namespace App

/-! ## Data model -/

/-- A `Blob` (or `File`, when `name` is present): its bytes and MIME type. -/
structure Blob where
  data : List Nat
  type : String
  name : Option String
  deriving DecidableEq, Repr

/-- The JSX stored in `content` of a message, one constructor per JSX block of
the source.  `audioMessage` is the block of lines 83-98 and 134-149 (the
`<audio>` element plays the blob the object URL was created for),
`statusContent` the block of lines 163-166, `botMessage` the blocks of lines
187-198 and 204-215 (header text, clock reading, rendered field), and
`errorMessage` the blocks of lines 225-228 and 240-243 (the text of the
`<span>`). -/
inductive Content where
  | audioMessage (time : String) (src : Blob)
  | statusContent
  | botMessage (header : String) (time : String) (text : Option String)
  | errorMessage (text : String)
  deriving DecidableEq, Repr

/-- An entry of `messages`: the object literal `{ type, content }`. -/
structure Message where
  type : String
  content : Content
  deriving DecidableEq, Repr

/-- The value `res.json()` resolves to.  `unparseable`: the promise rejects.
`json p u`: the body parsed to a JSON value whose properties
`pashto_transcription` and `urdu_translation` read as `p` and `u` (`none` when
the property is absent).  A body that parses to `null`, on which the property
access itself throws, is outside this model. -/
inductive JsonBody where
  | unparseable
  | json (pashto_transcription urdu_translation : Option String)
  deriving DecidableEq, Repr

/-- A `Response`: the HTTP status and the body. -/
structure Response where
  status : Nat
  body : JsonBody
  deriving DecidableEq, Repr

/-- The getter `res.ok`: the status is in the range 200-299. -/
def Response.ok (res : Response) : Bool :=
  decide (200 ≤ res.status) && decide (res.status ≤ 299)

/-- How `await fetch(...)` settles: the promise rejects, or resolves to a
response. -/
inductive FetchOutcome where
  | networkError
  | response (res : Response)
  deriving DecidableEq, Repr

/-- The multipart request of lines 171-177: `POST {API_URL}/transcribe` with
the single field `audio`. -/
structure Request where
  method : String
  path : String
  field : String
  file : Blob
  filename : String
  deriving DecidableEq, Repr

/-- `MediaRecorder.state`, as far as the component drives it. -/
inductive RecorderState where
  | inactive
  | recording
  deriving DecidableEq, Repr

/-- A `MediaRecorder` object: the stream it records, its `state`, and whether
`stop()` has been called with the `stop` event not yet dispatched. -/
structure MediaRecorder where
  stream : Nat
  state : RecorderState
  stopQueued : Bool
  deriving DecidableEq, Repr

/-- The component: React state, refs, and the browser objects around it.
`streams[i]` tells whether stream `i` still has a live track; `pendingMic`
counts `getUserMedia` promises not yet settled; `inFlight` holds the requests
whose `fetch` promise has not yet settled. -/
structure State where
  recording : Bool
  audioBlob : Option Blob
  messages : List Message
  loading : Bool
  mediaRecorderRef : Option Nat
  mediaStreamRef : Option Nat
  recordedChunksRef : List Blob
  streams : List Bool
  recorders : List MediaRecorder
  pendingMic : Nat
  inFlight : List Request
  mounted : Bool
  deriving DecidableEq, Repr

/-- The state after the first render: the `useState` and `useRef` initial
values of lines 20-29. -/
def State.init : State where
  recording := false
  audioBlob := none
  messages := []
  loading := false
  mediaRecorderRef := none
  mediaStreamRef := none
  recordedChunksRef := []
  streams := []
  recorders := []
  pendingMic := 0
  inFlight := []
  mounted := true

/-! ## Message list updaters (the functions passed to `setMessages`) -/

/-- The predicate of `prev.filter(msg => msg.type !== 'status')`. -/
def notStatus (msg : Message) : Bool :=
  !(msg.type == "status")

/-- Lines 80-100 and 131-151: `prev => [...prev, { type: 'user', ... }]`. -/
def appendUser (now : String) (blob : Blob) (prev : List Message) : List Message :=
  prev ++ [{ type := "user", content := Content.audioMessage now blob }]

/-- Lines 160-168: `prev => [...prev, { type: 'status', ... }]`. -/
def appendStatus (prev : List Message) : List Message :=
  prev ++ [{ type := "status", content := Content.statusContent }]

/-- Lines 182-218: the updater of the `res.ok` branch. -/
def onOk (p u : Option String) (t1 t2 : String) (prev : List Message) : List Message :=
  prev.filter notStatus ++
    [{ type := "bot", content := Content.botMessage "Pashto Transcription" t1 p },
     { type := "bot", content := Content.botMessage "Urdu Translation" t2 u }]

/-- Lines 220-231: the updater of the `else` branch (response not ok). -/
def onNotOk (prev : List Message) : List Message :=
  prev.filter notStatus ++
    [{ type := "bot",
       content := Content.errorMessage "Server error occurred. Please try again." }]

/-- Lines 235-246: the updater of the `catch` block. -/
def onCatch (prev : List Message) : List Message :=
  prev.filter notStatus ++
    [{ type := "bot",
       content := Content.errorMessage "Error processing your request. Please try again." }]

/-- Lines 174-246 of `handleSubmit` as a function on the message list: what the
code after `await fetch` does to `messages`, given how the fetch settled.  A
rejected `fetch` and a rejected `res.json()` both land in the `catch` block;
`res.json()` is awaited before `res.ok` is read, so an unparseable body lands
there whatever the status. -/
def handleSubmit.settle (outcome : FetchOutcome) (t1 t2 : String)
    (prev : List Message) : List Message :=
  match outcome with
  | FetchOutcome.networkError => onCatch prev
  | FetchOutcome.response res =>
    match res.body with
    | JsonBody.unparseable => onCatch prev
    | JsonBody.json p u =>
      if res.ok then onOk p u t1 t2 prev else onNotOk prev

/-! ## Capture: handlers and the recording effect (lines 64-153) -/

/-- Line 78: `new Blob(recordedChunksRef.current, { type: 'audio/wav' })`, the
concatenation of the chunks. -/
def newBlob (chunks : List Blob) : Blob :=
  { data := (chunks.map Blob.data).flatten, type := "audio/wav", name := none }

/-- Lines 73-75: `ondataavailable`, which keeps a chunk of positive size. -/
def ondataavailable (data : Blob) (s : State) : State :=
  if data.data.length > 0 then
    { s with recordedChunksRef := s.recordedChunksRef ++ [data] }
  else s

/-- Lines 77-101: `mediaRecorderRef.current.onstop`. -/
def onstop (now : String) (s : State) : State :=
  let blob := newBlob s.recordedChunksRef
  { s with audioBlob := some blob, messages := appendUser now blob s.messages }

/-- Lines 127-153: `handleFileChange`; `files` is `e.target.files`, absent or a
list, and `e.target.files?.[0]` is its first element if there is one. -/
def handleFileChange (files : Option (List Blob)) (now : String) (s : State) : State :=
  match files with
  | some (file :: _) =>
    { s with audioBlob := some file, messages := appendUser now file s.messages }
  | _ => s

/-- The method `MediaRecorder.stop()`: the state becomes `inactive` at once and
the `stop` event is queued. -/
def MediaRecorder.stop (r : MediaRecorder) : MediaRecorder :=
  { r with state := RecorderState.inactive, stopQueued := true }

/-- Lines 112-114: the recorder in `mediaRecorderRef`, if there is one and its
state is `'recording'`, is stopped. -/
def recordingEffect.stopRecorder (s : State) : State :=
  match s.mediaRecorderRef with
  | some r =>
    match s.recorders.get? r with
    | some rec =>
      if rec.state = RecorderState.recording then
        { s with recorders := s.recorders.set r rec.stop }
      else s
    | none => s
  | none => s

/-- Lines 115-117: every track of the stream in `mediaStreamRef`, if there is
one, is stopped. -/
def recordingEffect.stopTracks (s : State) : State :=
  match s.mediaStreamRef with
  | some i => { s with streams := s.streams.set i false }
  | none => s

/-- Lines 111-118: the cleanup function of the recording effect. -/
def recordingEffect.cleanup (s : State) : State :=
  recordingEffect.stopTracks (recordingEffect.stopRecorder s)

/-- Lines 66-109: the body of the recording effect.  When `recording` is set it
calls `getUserMedia`, whose promise settles in a later task. -/
def recordingEffect (s : State) : State :=
  if s.recording then { s with pendingMic := s.pendingMic + 1 } else s

/-- The setter `setRecording` followed by the re-render it causes: when the
value changes, the effect with dependency `[recording]` runs its previous
cleanup and then its body; when it does not change nothing re-runs. -/
def setRecording (v : Bool) (s : State) : State :=
  if s.recording = v then s
  else recordingEffect { recordingEffect.cleanup s with recording := v }

/-- Lines 68-104: the continuation of a granted `getUserMedia` request.  It
receives a fresh live stream, overwrites the three refs and starts a fresh
recorder on the stream. -/
def onStream (s : State) : State :=
  { s with
    recordedChunksRef := []
    mediaStreamRef := some s.streams.length
    streams := s.streams ++ [true]
    mediaRecorderRef := some s.recorders.length
    recorders := s.recorders ++
      [{ stream := s.streams.length, state := RecorderState.recording, stopQueued := false }] }

/-- Lines 105-108: the continuation of a rejected `getUserMedia` request. -/
def onMicError (s : State) : State :=
  setRecording false s

/-! ## Transport: `handleSubmit` (lines 155-250) -/

/-- Lines 156-177: `handleSubmit` up to `await fetch`. -/
def handleSubmit (s : State) : State :=
  match s.audioBlob with
  | none => s
  | some blob =>
    { s with
      loading := true
      messages := appendStatus s.messages
      inFlight := s.inFlight ++
        [{ method := "POST", path := "/transcribe", field := "audio",
           file := blob, filename := "recording.wav" }] }

/-- Lines 179-249: `handleSubmit` after `await fetch`, the `finally` block
included. -/
def handleSubmit.resume (outcome : FetchOutcome) (t1 t2 : String) (s : State) : State :=
  { s with
    messages := handleSubmit.settle outcome t1 t2 s.messages
    loading := false
    inFlight := s.inFlight.tail }

/-- Line 361: the `disabled` attribute of the submit button. -/
def submitDisabled (s : State) : Bool :=
  s.audioBlob.isNone || s.loading

/-! ## The event loop -/

/-- One task of the event loop.  Clicks and input changes reach their handler
only while the component is mounted and the control is enabled (lines 337, 352
and 361); promise continuations and recorder events run whenever the browser
has one to deliver. -/
inductive Event where
  | toggleRecording
  | micGranted
  | micDenied
  | teardown
  | selectFile (files : Option (List Blob)) (now : String)
  | clickSubmit
  | fetchSettled (outcome : FetchOutcome) (t1 t2 : String)
  | recorderStopped (r : Nat) (data : Blob) (now : String)
  deriving DecidableEq, Repr

/-- The transition function of the component. -/
def step (s : State) (e : Event) : State :=
  match e with
  | Event.toggleRecording =>
    if s.mounted && !s.loading then setRecording (!s.recording) s else s
  | Event.micGranted =>
    if 0 < s.pendingMic then onStream { s with pendingMic := s.pendingMic - 1 } else s
  | Event.micDenied =>
    if 0 < s.pendingMic then onMicError { s with pendingMic := s.pendingMic - 1 } else s
  | Event.teardown =>
    if s.mounted then { recordingEffect.cleanup s with mounted := false } else s
  | Event.selectFile files now =>
    if s.mounted && !s.loading then handleFileChange files now s else s
  | Event.clickSubmit =>
    if s.mounted && !submitDisabled s then handleSubmit s else s
  | Event.fetchSettled outcome t1 t2 =>
    if s.inFlight.isEmpty then s else handleSubmit.resume outcome t1 t2 s
  | Event.recorderStopped r data now =>
    match s.recorders.get? r with
    | some rec =>
      if rec.stopQueued then
        onstop now (ondataavailable data
          { s with recorders := s.recorders.set r { rec with stopQueued := false } })
      else s
    | none => s

/-- The state after a sequence of events, starting from `s`. -/
def run (s : State) (events : List Event) : State :=
  events.foldl step s

/-- The property of a state that the audio device is released: no acquired
stream has a live track and no recorder is recording. -/
def released (s : State) : Bool :=
  s.streams.all (fun live => !live) &&
    s.recorders.all (fun r => decide (r.state = RecorderState.inactive))

/-- The durable part of the message list: its entries other than the
transient status entries, in order. -/
def transcript (s : State) : List Message :=
  s.messages.filter notStatus

/-- The invariant of the transport: a request is in flight exactly while
`loading` is set, and then there is one. -/
def oneFlight (s : State) : Prop :=
  (s.loading = true ∧ s.inFlight.length = 1) ∨ (s.loading = false ∧ s.inFlight = [])

/-! ## Visualization: `updateAudioLevel` (lines 42-47) -/

/-- Lines 44-45: the value passed to `setAudioLevel`.  `dataArray` holds the
elements of the `Uint8Array`; `fl` is the rounding of the number type, applied
to the exact result of each addition and division.  `reduce` without an initial
value throws on an empty array (`none`). -/
def updateAudioLevel (fl : ℚ → ℚ) (dataArray : List Nat) : Option ℚ :=
  match dataArray with
  | [] => none
  | x :: xs =>
    let sum := xs.foldl (fun (a : ℚ) (b : ℕ) => fl (a + (b : ℚ))) (x : ℚ)
    let average := fl (sum / ((x :: xs).length : ℚ))
    some (fl (average / 255))

/-! ## Lemmas on the message list updaters -/

theorem notStatus_bot (c : Content) : notStatus { type := "bot", content := c } = true := by
  simp [notStatus]

theorem notStatus_user (c : Content) : notStatus { type := "user", content := c } = true := by
  simp [notStatus]

theorem notStatus_status (c : Content) :
    notStatus { type := "status", content := c } = false := by
  simp [notStatus]

theorem notStatus_iff (m : Message) : notStatus m = true ↔ m.type ≠ "status" := by
  simp [notStatus]

theorem filter_notStatus_of_forall (l : List Message) (h : ∀ m ∈ l, m.type ≠ "status") :
    l.filter notStatus = l := by
  rw [List.filter_eq_self]
  intro m hm
  exact (notStatus_iff m).2 (h m hm)

theorem filter_appendUser (now : String) (blob : Blob) (prev : List Message) :
    (appendUser now blob prev).filter notStatus =
      prev.filter notStatus ++ [{ type := "user", content := Content.audioMessage now blob }] := by
  simp [appendUser, List.filter_append, notStatus_user]

theorem filter_appendStatus (prev : List Message) :
    (appendStatus prev).filter notStatus = prev.filter notStatus := by
  simp [appendStatus, List.filter_append, notStatus_status]

theorem filter_onOk (p u : Option String) (t1 t2 : String) (prev : List Message) :
    (onOk p u t1 t2 prev).filter notStatus = onOk p u t1 t2 prev := by
  simp [onOk, List.filter_append, List.filter_filter, notStatus_bot]

theorem filter_onNotOk (prev : List Message) :
    (onNotOk prev).filter notStatus = onNotOk prev := by
  simp [onNotOk, List.filter_append, List.filter_filter, notStatus_bot]

theorem filter_onCatch (prev : List Message) :
    (onCatch prev).filter notStatus = onCatch prev := by
  simp [onCatch, List.filter_append, List.filter_filter, notStatus_bot]

theorem settle_cases (outcome : FetchOutcome) (t1 t2 : String) (prev : List Message) :
    handleSubmit.settle outcome t1 t2 prev = onCatch prev ∨
    handleSubmit.settle outcome t1 t2 prev = onNotOk prev ∨
    ∃ p u, handleSubmit.settle outcome t1 t2 prev = onOk p u t1 t2 prev := by
  cases outcome with
  | networkError => exact Or.inl rfl
  | response res =>
    obtain ⟨status, body⟩ := res
    cases body with
    | unparseable => exact Or.inl rfl
    | json p u =>
      by_cases hok : Response.ok { status := status, body := JsonBody.json p u } = true
      · exact Or.inr (Or.inr ⟨p, u, by simp [handleSubmit.settle, hok]⟩)
      · exact Or.inr (Or.inl (by simp [handleSubmit.settle, hok]))

/-- Whatever the outcome, the settled list is the old list without its status
entries, followed by new entries none of which is a status entry. -/
theorem settle_eq_append (outcome : FetchOutcome) (t1 t2 : String) (prev : List Message) :
    ∃ added : List Message,
      handleSubmit.settle outcome t1 t2 prev = prev.filter notStatus ++ added ∧
      added.filter notStatus = added := by
  rcases settle_cases outcome t1 t2 prev with h | h | ⟨p, u, h⟩
  · exact ⟨_, h, by simp [notStatus_bot]⟩
  · exact ⟨_, h, by simp [notStatus_bot]⟩
  · exact ⟨_, h, by simp [notStatus_bot]⟩

theorem filter_settle (outcome : FetchOutcome) (t1 t2 : String) (prev : List Message) :
    (handleSubmit.settle outcome t1 t2 prev).filter notStatus =
      handleSubmit.settle outcome t1 t2 prev := by
  obtain ⟨added, h, hadd⟩ := settle_eq_append outcome t1 t2 prev
  rw [h]
  simp [List.filter_append, List.filter_filter, hadd]

theorem ok_of_2xx (status : Nat) (body : JsonBody) (h : 200 ≤ status ∧ status ≤ 299) :
    Response.ok { status := status, body := body } = true := by
  simp [Response.ok, h.1, h.2]

/-! ## Transport: the settled message list -/

/-- C1: for every message list and every 2xx response whose JSON body carries
`pashto_transcription` and `urdu_translation`, the code of `handleSubmit` after
the fetch yields the prior list without its status entries, followed by exactly
two entries of type `'bot'`: first the one rendering `pashto_transcription`,
then the one rendering `urdu_translation`, both verbatim.  In particular, when
the prior list holds one status entry, exactly that entry is removed. -/
theorem handleSubmit_success (prev : List Message) (status : Nat) (p u t1 t2 : String)
    (h2xx : 200 ≤ status ∧ status ≤ 299) :
    handleSubmit.settle
        (FetchOutcome.response { status := status, body := JsonBody.json (some p) (some u) })
        t1 t2 prev =
      prev.filter (fun msg => msg.type != "status") ++
        [{ type := "bot", content := Content.botMessage "Pashto Transcription" t1 (some p) },
         { type := "bot", content := Content.botMessage "Urdu Translation" t2 (some u) }] ∧
    ∀ (before after : List Message) (c : Content),
      (∀ m ∈ before ++ after, m.type ≠ "status") →
      prev = before ++ { type := "status", content := c } :: after →
      handleSubmit.settle
          (FetchOutcome.response { status := status, body := JsonBody.json (some p) (some u) })
          t1 t2 prev =
        before ++ after ++
          [{ type := "bot", content := Content.botMessage "Pashto Transcription" t1 (some p) },
           { type := "bot", content := Content.botMessage "Urdu Translation" t2 (some u) }] := by
  have hmain : handleSubmit.settle
      (FetchOutcome.response { status := status, body := JsonBody.json (some p) (some u) })
      t1 t2 prev = onOk (some p) (some u) t1 t2 prev := by
    simp [handleSubmit.settle, ok_of_2xx status _ h2xx]
  refine ⟨?_, ?_⟩
  · rw [hmain]; rfl
  · intro before after c hno hprev
    rw [hmain, hprev]
    have hb : before.filter notStatus = before :=
      filter_notStatus_of_forall before (fun m hm => hno m (List.mem_append_left _ hm))
    have ha : after.filter notStatus = after :=
      filter_notStatus_of_forall after (fun m hm => hno m (List.mem_append_right _ hm))
    simp [onOk, List.filter_append, List.filter_cons, notStatus_status, hb, ha]

/-- Witness of C1: a list holding a user entry and the status entry, and a
200 response. -/
theorem handleSubmit_success_witness :
    handleSubmit.settle
        (FetchOutcome.response { status := 200, body := JsonBody.json (some "سلام") (some "سلام") })
        "10:01" "10:01"
        [{ type := "user", content := Content.audioMessage "10:00" (newBlob []) },
         { type := "status", content := Content.statusContent }] =
      [{ type := "user", content := Content.audioMessage "10:00" (newBlob []) },
       { type := "bot", content := Content.botMessage "Pashto Transcription" "10:01" (some "سلام") },
       { type := "bot", content := Content.botMessage "Urdu Translation" "10:01" (some "سلام") }] :=
  (handleSubmit_success _ 200 "سلام" "سلام" "10:01" "10:01" (by decide)).2
    [{ type := "user", content := Content.audioMessage "10:00" (newBlob []) }] []
    Content.statusContent (by simp) rfl

theorem notOk_of_not_2xx (status : Nat) (body : JsonBody)
    (h : ¬ (200 ≤ status ∧ status ≤ 299)) :
    Response.ok { status := status, body := body } = false := by
  simp only [Response.ok, Bool.and_eq_false_iff, decide_eq_false_iff_not]
  by_cases h1 : 200 ≤ status
  · exact Or.inr (fun h2 => h ⟨h1, h2⟩)
  · exact Or.inl h1

/-- C2, as stated, fails: a recording has been captured and submitted, and the
response is HTTP 500.  The entry that `handleSubmit` appends has type `'bot'`,
it is not in the prior list, and no entry of the resulting list has type
`'error'`. -/
theorem handleSubmit_failure_is_bot :
    handleSubmit.settle
        (FetchOutcome.response { status := 500, body := JsonBody.json none none }) "10:01" "10:01"
        [{ type := "user", content := Content.audioMessage "10:00" (newBlob []) },
         { type := "status", content := Content.statusContent }] =
      [{ type := "user", content := Content.audioMessage "10:00" (newBlob []) },
       { type := "bot",
         content := Content.errorMessage "Server error occurred. Please try again." }] ∧
    (∃ m ∈ handleSubmit.settle
        (FetchOutcome.response { status := 500, body := JsonBody.json none none }) "10:01" "10:01"
        [{ type := "user", content := Content.audioMessage "10:00" (newBlob []) },
         { type := "status", content := Content.statusContent }],
      m.type = "bot" ∧
      m ∉ [{ type := "user", content := Content.audioMessage "10:00" (newBlob []) },
           ({ type := "status", content := Content.statusContent } : Message)]) ∧
    ∀ m ∈ handleSubmit.settle
        (FetchOutcome.response { status := 500, body := JsonBody.json none none }) "10:01" "10:01"
        [{ type := "user", content := Content.audioMessage "10:00" (newBlob []) },
         { type := "status", content := Content.statusContent }], m.type ≠ "error" := by
  have h : handleSubmit.settle
      (FetchOutcome.response { status := 500, body := JsonBody.json none none }) "10:01" "10:01"
      [{ type := "user", content := Content.audioMessage "10:00" (newBlob []) },
       { type := "status", content := Content.statusContent }] =
      [{ type := "user", content := Content.audioMessage "10:00" (newBlob []) },
       { type := "bot",
         content := Content.errorMessage "Server error occurred. Please try again." }] := by
    simp [handleSubmit.settle, Response.ok, onNotOk, notStatus]
  rw [h]
  simp

/-- C2, amended: for every message list, a response with a non-2xx status makes
`handleSubmit` remove the status entries and append exactly one entry; that
entry has type `'bot'` (the code has no `'error'` type) and its content is an
error notice: "Server error occurred. Please try again." when the body parses,
"Error processing your request. Please try again." when it does not.  No
transcription or translation entry is added. -/
theorem handleSubmit_failure (prev : List Message) (res : Response) (t1 t2 : String)
    (hfail : ¬ (200 ≤ res.status ∧ res.status ≤ 299)) :
    handleSubmit.settle (FetchOutcome.response res) t1 t2 prev =
      prev.filter (fun msg => msg.type != "status") ++
        [{ type := "bot",
           content := Content.errorMessage
             (match res.body with
              | JsonBody.json _ _ => "Server error occurred. Please try again."
              | JsonBody.unparseable =>
                "Error processing your request. Please try again.") }] := by
  obtain ⟨status, body⟩ := res
  cases body with
  | unparseable => rfl
  | json p u =>
    have hok := notOk_of_not_2xx status (JsonBody.json p u) hfail
    simp only [handleSubmit.settle, hok]
    rfl

/-- Witness of C2 amended: an HTTP 500 response with a JSON body, after a
recording has been captured and submitted. -/
theorem handleSubmit_failure_witness :
    handleSubmit.settle
        (FetchOutcome.response { status := 500, body := JsonBody.json none none }) "10:01" "10:01"
        [{ type := "user", content := Content.audioMessage "10:00" (newBlob []) },
         { type := "status", content := Content.statusContent }] =
      [{ type := "user", content := Content.audioMessage "10:00" (newBlob []) },
       { type := "status", content := Content.statusContent }].filter
          (fun msg => msg.type != "status") ++
        [{ type := "bot",
           content := Content.errorMessage "Server error occurred. Please try again." }] :=
  handleSubmit_failure _ { status := 500, body := JsonBody.json none none } "10:01" "10:01"
    (by decide)

/-- C7, as stated, fails: after an HTTP 500 response with a parseable body and
after a network exception the message lists differ, because the two error
entries carry different descriptions. -/
theorem failure_descriptions_differ :
    handleSubmit.settle
        (FetchOutcome.response { status := 500, body := JsonBody.json none none }) "10:01" "10:01"
        [{ type := "status", content := Content.statusContent }] ≠
      handleSubmit.settle FetchOutcome.networkError "10:01" "10:01"
        [{ type := "status", content := Content.statusContent }] := by
  simp [handleSubmit.settle, Response.ok, onNotOk, onCatch, notStatus]

/-- C7, amended: failures collapse to two generic entries, not one.  For every
prior list, a network exception and an unparseable body (whatever the status)
yield the same list, ending in the `'bot'` entry "Error processing your
request. Please try again."; every non-2xx response with a parseable body,
whatever its status and body, yields the list ending in the `'bot'` entry
"Server error occurred. Please try again.".  The two entries have the same type
and differ in the description only. -/
theorem failures_collapse (prev : List Message) (t1 t2 : String) :
    (∀ status : Nat,
      handleSubmit.settle
          (FetchOutcome.response { status := status, body := JsonBody.unparseable }) t1 t2 prev =
        handleSubmit.settle FetchOutcome.networkError t1 t2 prev) ∧
    handleSubmit.settle FetchOutcome.networkError t1 t2 prev =
      prev.filter (fun msg => msg.type != "status") ++
        [{ type := "bot",
           content := Content.errorMessage "Error processing your request. Please try again." }] ∧
    ∀ (status : Nat) (p u : Option String), ¬ (200 ≤ status ∧ status ≤ 299) →
      handleSubmit.settle
          (FetchOutcome.response { status := status, body := JsonBody.json p u }) t1 t2 prev =
        prev.filter (fun msg => msg.type != "status") ++
          [{ type := "bot",
             content := Content.errorMessage "Server error occurred. Please try again." }] := by
  refine ⟨fun _ => rfl, rfl, ?_⟩
  intro status p u hfail
  have hok := notOk_of_not_2xx status (JsonBody.json p u) hfail
  simp only [handleSubmit.settle, hok]
  rfl

/-- Witness of C7 amended: HTTP 500 and HTTP 404 with different parseable
bodies give the same list. -/
theorem failures_collapse_witness :
    handleSubmit.settle
        (FetchOutcome.response { status := 500, body := JsonBody.json none none }) "10:01" "10:01"
        [{ type := "status", content := Content.statusContent }] =
      handleSubmit.settle
        (FetchOutcome.response { status := 404, body := JsonBody.json (some "x") none })
        "10:01" "10:01" [{ type := "status", content := Content.statusContent }] :=
  ((failures_collapse _ "10:01" "10:01").2.2 500 none none (by decide)).trans
    ((failures_collapse _ "10:01" "10:01").2.2 404 (some "x") none (by decide)).symm

/-! ## Frame lemmas: what the capture code leaves alone -/

theorem stopRecorder_frame (s : State) :
    (recordingEffect.stopRecorder s).messages = s.messages ∧
    (recordingEffect.stopRecorder s).audioBlob = s.audioBlob ∧
    (recordingEffect.stopRecorder s).loading = s.loading ∧
    (recordingEffect.stopRecorder s).inFlight = s.inFlight ∧
    (recordingEffect.stopRecorder s).recording = s.recording := by
  unfold recordingEffect.stopRecorder
  split
  · split
    · split <;> simp
    · simp
  · simp

theorem stopTracks_frame (s : State) :
    (recordingEffect.stopTracks s).messages = s.messages ∧
    (recordingEffect.stopTracks s).audioBlob = s.audioBlob ∧
    (recordingEffect.stopTracks s).loading = s.loading ∧
    (recordingEffect.stopTracks s).inFlight = s.inFlight ∧
    (recordingEffect.stopTracks s).recording = s.recording := by
  unfold recordingEffect.stopTracks
  cases s.mediaStreamRef <;> simp

theorem cleanup_frame (s : State) :
    (recordingEffect.cleanup s).messages = s.messages ∧
    (recordingEffect.cleanup s).audioBlob = s.audioBlob ∧
    (recordingEffect.cleanup s).loading = s.loading ∧
    (recordingEffect.cleanup s).inFlight = s.inFlight ∧
    (recordingEffect.cleanup s).recording = s.recording := by
  obtain ⟨a1, a2, a3, a4, a5⟩ := stopRecorder_frame s
  obtain ⟨b1, b2, b3, b4, b5⟩ := stopTracks_frame (recordingEffect.stopRecorder s)
  unfold recordingEffect.cleanup
  exact ⟨b1.trans a1, b2.trans a2, b3.trans a3, b4.trans a4, b5.trans a5⟩

theorem setRecording_frame (v : Bool) (s : State) :
    (setRecording v s).messages = s.messages ∧
    (setRecording v s).audioBlob = s.audioBlob ∧
    (setRecording v s).loading = s.loading ∧
    (setRecording v s).inFlight = s.inFlight := by
  obtain ⟨h1, h2, h3, h4, _⟩ := cleanup_frame s
  unfold setRecording recordingEffect
  by_cases hv : s.recording = v
  · simp [hv]
  · cases v <;> simp [hv, h1, h2, h3, h4]

theorem setRecording_recording (v : Bool) (s : State) : (setRecording v s).recording = v := by
  unfold setRecording recordingEffect
  by_cases hv : s.recording = v
  · simp [hv]
  · cases v <;> simp [hv]

/-! ## Capture -/

/-- C6: for every prior state, whatever chunks are buffered, the recorder's
`onstop` appends exactly one entry, of type `'user'`, at the end of the list and
sets the pending blob to the blob built from the chunks; and `handleFileChange`
with a chosen file appends exactly one entry of type `'user'` at the end and
sets the pending blob to that file.  Any earlier pending blob is replaced. -/
theorem capture_appends_user (s : State) (now : String) :
    (onstop now s).messages =
        s.messages ++
          [{ type := "user",
             content := Content.audioMessage now (newBlob s.recordedChunksRef) }] ∧
    (onstop now s).audioBlob = some (newBlob s.recordedChunksRef) ∧
    ∀ (file : Blob) (others : List Blob),
      (handleFileChange (some (file :: others)) now s).messages =
          s.messages ++ [{ type := "user", content := Content.audioMessage now file }] ∧
      (handleFileChange (some (file :: others)) now s).audioBlob = some file :=
  ⟨rfl, rfl, fun _ _ => ⟨rfl, rfl⟩⟩

theorem set_false_of_all_stopped (l : List Bool) :
    ∀ i : Nat, l.all (fun live => !live) = true → l.set i false = l := by
  induction l with
  | nil => intro i _; rfl
  | cons b rest ih =>
    intro i h
    simp only [List.all_cons, Bool.and_eq_true, Bool.not_eq_true'] at h
    cases i with
    | zero => simp [h.1]
    | succ j => simp [ih j h.2]

theorem stopRecorder_of_released (s : State) (h : released s = true) :
    recordingEffect.stopRecorder s = s := by
  unfold recordingEffect.stopRecorder
  split
  · split
    · rename_i r _ rec hget
      have hmem : rec ∈ s.recorders := List.get?_mem hget
      have hall : s.recorders.all (fun r => decide (r.state = RecorderState.inactive)) = true := by
        simp only [released, Bool.and_eq_true] at h
        exact h.2
      have hinactive : rec.state = RecorderState.inactive := by
        have := List.all_eq_true.1 hall rec hmem
        simpa using this
      simp [hinactive]
    · rfl
  · rfl

theorem stopTracks_of_released (s : State) (h : released s = true) :
    recordingEffect.stopTracks s = s := by
  have hall : s.streams.all (fun live => !live) = true := by
    simp only [released, Bool.and_eq_true] at h
    exact h.1
  unfold recordingEffect.stopTracks
  split
  · rename_i i _
    rw [set_false_of_all_stopped s.streams i hall]
  · rfl

theorem cleanup_of_released (s : State) (h : released s = true) :
    recordingEffect.cleanup s = s := by
  unfold recordingEffect.cleanup
  rw [stopRecorder_of_released s h, stopTracks_of_released s h]

theorem setRecording_false_of_released (s : State) (h : released s = true) :
    setRecording false s = { s with recording := false } := by
  unfold setRecording
  by_cases hr : s.recording = false
  · rw [if_pos hr]
    cases s
    simp_all
  · rw [if_neg hr, cleanup_of_released s h]
    simp [recordingEffect]

/-- C8, as stated, fails: Record, Stop and Record are clicked before the first
microphone request resolves; the first request is granted and a recording runs;
then the second request fails.  The failure reverts the recording flag, and
with it stops the running recorder and its stream; the recorder's stop event
then appends a user Message and sets the pending blob. -/
theorem mic_failure_stops_recorder :
    0 < (run State.init
        [Event.toggleRecording, Event.toggleRecording, Event.toggleRecording,
         Event.micGranted]).pendingMic ∧
    (run State.init
        [Event.toggleRecording, Event.toggleRecording, Event.toggleRecording,
         Event.micGranted]).recorders =
      [{ stream := 0, state := RecorderState.recording, stopQueued := false }] ∧
    (run State.init
        [Event.toggleRecording, Event.toggleRecording, Event.toggleRecording,
         Event.micGranted]).messages = [] ∧
    (run State.init
        [Event.toggleRecording, Event.toggleRecording, Event.toggleRecording,
         Event.micGranted]).audioBlob = none ∧
    (run State.init
        [Event.toggleRecording, Event.toggleRecording, Event.toggleRecording,
         Event.micGranted, Event.micDenied]).recording = false ∧
    (run State.init
        [Event.toggleRecording, Event.toggleRecording, Event.toggleRecording,
         Event.micGranted, Event.micDenied]).streams = [false] ∧
    (run State.init
        [Event.toggleRecording, Event.toggleRecording, Event.toggleRecording,
         Event.micGranted, Event.micDenied]).recorders =
      [{ stream := 0, state := RecorderState.inactive, stopQueued := true }] ∧
    (run State.init
        [Event.toggleRecording, Event.toggleRecording, Event.toggleRecording,
         Event.micGranted, Event.micDenied,
         Event.recorderStopped 0 { data := [1, 2], type := "audio/webm", name := none }
           "10:00"]).messages =
      [{ type := "user",
         content := Content.audioMessage "10:00"
           { data := [1, 2], type := "audio/wav", name := none } }] ∧
    (run State.init
        [Event.toggleRecording, Event.toggleRecording, Event.toggleRecording,
         Event.micGranted, Event.micDenied,
         Event.recorderStopped 0 { data := [1, 2], type := "audio/webm", name := none }
           "10:00"]).audioBlob =
      some { data := [1, 2], type := "audio/wav", name := none } := by
  refine ⟨?_, ?_, ?_, ?_, ?_, ?_, ?_, ?_, ?_⟩
  · decide
  all_goals rfl

/-- C8, amended: when the microphone request fails, the recording flag is
reverted to off, and the continuation itself leaves the message list, the
pending blob, the loading flag and the requests in flight exactly as before (it
appends no Message), both as the continuation and as the event of the loop that
delivers the failure.  If, when the failure arrives, no acquired stream has a
live track and no recorder is recording, nothing else changes at all: the state
after the event is the state before it with the recording flag off and the
request settled, so no stop event is queued and no Message follows. -/
theorem mic_failure_reverts (s : State) (hpending : 0 < s.pendingMic) :
    ((onMicError s).recording = false ∧
      (onMicError s).messages = s.messages ∧
      (onMicError s).audioBlob = s.audioBlob ∧
      (onMicError s).loading = s.loading ∧
      (onMicError s).inFlight = s.inFlight) ∧
    ((step s Event.micDenied).recording = false ∧
      (step s Event.micDenied).messages = s.messages ∧
      (step s Event.micDenied).audioBlob = s.audioBlob ∧
      (step s Event.micDenied).loading = s.loading ∧
      (step s Event.micDenied).inFlight = s.inFlight) ∧
    (released s = true →
      onMicError s = { s with recording := false } ∧
      step s Event.micDenied =
        { s with recording := false, pendingMic := s.pendingMic - 1 }) := by
  have key : ∀ t : State, (onMicError t).recording = false ∧
      (onMicError t).messages = t.messages ∧
      (onMicError t).audioBlob = t.audioBlob ∧
      (onMicError t).loading = t.loading ∧
      (onMicError t).inFlight = t.inFlight := by
    intro t
    obtain ⟨h1, h2, h3, h4⟩ := setRecording_frame false t
    exact ⟨setRecording_recording false t, h1, h2, h3, h4⟩
  have hstep : step s Event.micDenied = onMicError { s with pendingMic := s.pendingMic - 1 } := by
    simp [step, hpending]
  refine ⟨key s, ?_, ?_⟩
  · rw [hstep]
    exact key _
  · intro hrel
    refine ⟨setRecording_false_of_released s hrel, ?_⟩
    rw [hstep]
    exact setRecording_false_of_released { s with pendingMic := s.pendingMic - 1 } hrel

/-- Witness of C8 amended: the user clicks Record and the microphone is
refused; the state is the initial state again, with the request settled. -/
theorem mic_failure_reverts_witness :
    step (step State.init Event.toggleRecording) Event.micDenied =
      { step State.init Event.toggleRecording with recording := false, pendingMic := 0 } :=
  ((mic_failure_reverts (step State.init Event.toggleRecording) (by decide)).2.2 rfl).2

/-! ## Transport: the guards of `handleSubmit` -/

/-- C5: when the pending blob is absent, `handleSubmit` is a no-op for every
state: the message list is unchanged (no status entry is appended), the loading
flag is unchanged and no request is sent.  The whole state is unchanged. -/
theorem handleSubmit_without_blob (s : State) (hblob : s.audioBlob = none) :
    handleSubmit s = s := by
  simp [handleSubmit, hblob]

/-- Witness of C5: submitting in the initial state. -/
theorem handleSubmit_without_blob_witness : handleSubmit State.init = State.init :=
  handleSubmit_without_blob State.init rfl

/-! ## The event loop: what each event does to the shared state -/

theorem onStream_frame (s : State) :
    (onStream s).messages = s.messages ∧ (onStream s).loading = s.loading ∧
    (onStream s).inFlight = s.inFlight :=
  ⟨rfl, rfl, rfl⟩

theorem handleFileChange_frame (files : Option (List Blob)) (now : String) (s : State) :
    (handleFileChange files now s).loading = s.loading ∧
    (handleFileChange files now s).inFlight = s.inFlight := by
  unfold handleFileChange
  split <;> simp

theorem ondataavailable_frame (data : Blob) (s : State) :
    (ondataavailable data s).messages = s.messages ∧
    (ondataavailable data s).loading = s.loading ∧
    (ondataavailable data s).inFlight = s.inFlight := by
  unfold ondataavailable
  split <;> simp

/-- The messages after one event: unchanged, or one of the four updaters
applied to the messages before. -/
theorem step_messages (s : State) (e : Event) :
    (step s e).messages = s.messages ∨
    (∃ now blob, (step s e).messages = appendUser now blob s.messages) ∨
    (step s e).messages = appendStatus s.messages ∨
    ∃ outcome t1 t2, (step s e).messages = handleSubmit.settle outcome t1 t2 s.messages := by
  cases e with
  | toggleRecording =>
    left
    simp only [step]
    split
    · exact (setRecording_frame _ s).1
    · rfl
  | micGranted =>
    left
    simp only [step]
    split <;> rfl
  | micDenied =>
    left
    simp only [step]
    split
    · exact (setRecording_frame false _).1
    · rfl
  | teardown =>
    left
    simp only [step]
    split
    · exact (cleanup_frame s).1
    · rfl
  | selectFile files now =>
    simp only [step]
    split
    · unfold handleFileChange
      split
      · exact Or.inr (Or.inl ⟨_, _, rfl⟩)
      · exact Or.inl rfl
    · exact Or.inl rfl
  | clickSubmit =>
    simp only [step]
    split
    · unfold handleSubmit
      split
      · exact Or.inl rfl
      · exact Or.inr (Or.inr (Or.inl rfl))
    · exact Or.inl rfl
  | fetchSettled outcome t1 t2 =>
    simp only [step]
    split
    · exact Or.inl rfl
    · exact Or.inr (Or.inr (Or.inr ⟨outcome, t1, t2, rfl⟩))
  | recorderStopped r data now =>
    simp only [step]
    split
    · split
      · right; left
        rename_i rec _ _
        have hm := (ondataavailable_frame data
          { s with recorders := s.recorders.set r { rec with stopQueued := false } }).1
        refine ⟨now, newBlob (ondataavailable data
          { s with recorders := s.recorders.set r { rec with stopQueued := false } }).recordedChunksRef,
          ?_⟩
        simp only [onstop, hm]
      · exact Or.inl rfl
    · exact Or.inl rfl

theorem step_transcript (s : State) (e : Event) :
    ∃ added, transcript (step s e) = transcript s ++ added := by
  unfold transcript
  rcases step_messages s e with h | ⟨now, blob, h⟩ | h | ⟨outcome, t1, t2, h⟩
  · exact ⟨[], by rw [h]; simp⟩
  · exact ⟨_, by rw [h, filter_appendUser]⟩
  · exact ⟨[], by rw [h, filter_appendStatus]; simp⟩
  · obtain ⟨added, h2, _⟩ := settle_eq_append outcome t1 t2 s.messages
    exact ⟨added, by rw [h, filter_settle, h2]⟩

theorem run_transcript (events : List Event) :
    ∀ s : State, ∃ added, transcript (run s events) = transcript s ++ added := by
  induction events with
  | nil => intro s; exact ⟨[], by simp [run]⟩
  | cons e rest ih =>
    intro s
    obtain ⟨a1, h1⟩ := step_transcript s e
    obtain ⟨a2, h2⟩ := ih (step s e)
    refine ⟨a1 ++ a2, ?_⟩
    have : run s (e :: rest) = run (step s e) rest := rfl
    rw [this, h2, h1, List.append_assoc]

/-- C9: the message sequence is append-only apart from the transient status
entries.  For recording stop (`onstop`), file selection (`handleFileChange`,
whatever the files), submit start (`handleSubmit`) and the settling of a submit
(`handleSubmit.resume`, whatever the outcome: success, non-2xx, exception), and
for every prior state, the prior list without its status entries is an initial
segment of the new list without its status entries; the same holds for every
event of the loop and so for every sequence of events.  No user or bot entry is
ever removed or reordered, and new entries come last. -/
theorem messages_append_only (s : State) :
    (∀ now, transcript s <+: transcript (onstop now s)) ∧
    (∀ files now, transcript s <+: transcript (handleFileChange files now s)) ∧
    transcript s <+: transcript (handleSubmit s) ∧
    (∀ outcome t1 t2, transcript s <+: transcript (handleSubmit.resume outcome t1 t2 s)) ∧
    (∀ e, transcript s <+: transcript (step s e)) ∧
    ∀ events, transcript s <+: transcript (run s events) := by
  refine ⟨?_, ?_, ?_, ?_, ?_, ?_⟩
  · intro now
    exact ⟨_, (filter_appendUser now _ s.messages).symm⟩
  · intro files now
    unfold handleFileChange
    split
    · exact ⟨_, (filter_appendUser now _ s.messages).symm⟩
    · exact ⟨[], by simp⟩
  · unfold handleSubmit
    split
    · exact ⟨[], by simp⟩
    · exact ⟨[], by simp [transcript, filter_appendStatus]⟩
  · intro outcome t1 t2
    obtain ⟨added, h2, _⟩ := settle_eq_append outcome t1 t2 s.messages
    refine ⟨added, ?_⟩
    simp only [transcript, handleSubmit.resume]
    rw [filter_settle, h2]
  · intro e
    obtain ⟨added, h⟩ := step_transcript s e
    exact ⟨added, h.symm⟩
  · intro events
    obtain ⟨added, h⟩ := run_transcript events s
    exact ⟨added, h.symm⟩

/-! ## Transport: one submission at a time -/

/-- What one event does to the loading flag and the requests in flight: nothing,
or a submit from a state that is not loading, or the settling of a request. -/
theorem step_flight (s : State) (e : Event) :
    ((step s e).loading = s.loading ∧ (step s e).inFlight = s.inFlight) ∨
    (s.loading = false ∧ (step s e).loading = true ∧
      ∃ req, (step s e).inFlight = s.inFlight ++ [req]) ∨
    (s.inFlight ≠ [] ∧ (step s e).loading = false ∧
      (step s e).inFlight = s.inFlight.tail) := by
  cases e with
  | toggleRecording =>
    left
    simp only [step]
    split
    · exact ⟨(setRecording_frame _ s).2.2.1, (setRecording_frame _ s).2.2.2⟩
    · exact ⟨rfl, rfl⟩
  | micGranted =>
    left
    simp only [step]
    split <;> exact ⟨rfl, rfl⟩
  | micDenied =>
    left
    simp only [step]
    split
    · exact ⟨(setRecording_frame false _).2.2.1, (setRecording_frame false _).2.2.2⟩
    · exact ⟨rfl, rfl⟩
  | teardown =>
    left
    simp only [step]
    split
    · exact ⟨(cleanup_frame s).2.2.1, (cleanup_frame s).2.2.2.1⟩
    · exact ⟨rfl, rfl⟩
  | selectFile files now =>
    left
    simp only [step]
    split
    · exact handleFileChange_frame files now s
    · exact ⟨rfl, rfl⟩
  | clickSubmit =>
    simp only [step]
    split
    · rename_i h
      have hl : s.loading = false := by
        cases hs : s.loading
        · rfl
        · simp [submitDisabled, hs] at h
      unfold handleSubmit
      split
      · exact Or.inl ⟨rfl, rfl⟩
      · exact Or.inr (Or.inl ⟨hl, rfl, _, rfl⟩)
    · exact Or.inl ⟨rfl, rfl⟩
  | fetchSettled outcome t1 t2 =>
    simp only [step]
    split
    · exact Or.inl ⟨rfl, rfl⟩
    · rename_i h
      refine Or.inr (Or.inr ⟨?_, rfl, rfl⟩)
      intro hnil
      exact h (by simp [hnil])
  | recorderStopped r data now =>
    left
    simp only [step]
    split
    · split
      · rename_i rec _ _
        have hm := ondataavailable_frame data
          { s with recorders := s.recorders.set r { rec with stopQueued := false } }
        exact ⟨by simp only [onstop, hm.2.1], by simp only [onstop, hm.2.2]⟩
      · exact ⟨rfl, rfl⟩
    · exact ⟨rfl, rfl⟩

theorem step_oneFlight (s : State) (e : Event) (h : oneFlight s) : oneFlight (step s e) := by
  rcases step_flight s e with ⟨hl, hf⟩ | ⟨hl, hl2, req, hf⟩ | ⟨hne, hl2, hf⟩
  · unfold oneFlight
    rw [hl, hf]
    exact h
  · rcases h with ⟨ht, _⟩ | ⟨_, hnil⟩
    · rw [hl] at ht
      exact absurd ht (by decide)
    · left
      exact ⟨hl2, by rw [hf, hnil]; rfl⟩
  · rcases h with ⟨_, hlen⟩ | ⟨_, hnil⟩
    · right
      refine ⟨hl2, ?_⟩
      rw [hf]
      cases hq : s.inFlight with
      | nil => rfl
      | cons a rest =>
        rw [hq] at hlen
        simp at hlen
        simp [hlen]
    · exact absurd hnil hne

theorem run_oneFlight (events : List Event) :
    ∀ s : State, oneFlight s → oneFlight (run s events) := by
  induction events with
  | nil => intro s h; exact h
  | cons e rest ih =>
    intro s h
    exact ih (step s e) (step_oneFlight s e h)

theorem init_oneFlight : oneFlight State.init :=
  Or.inr ⟨rfl, rfl⟩

/-- C3: while a submission is in flight (`loading` is set), triggering submit
again through the submit button has no effect: the state after the click is the
state before it, so the message list, the pending blob and the loading flag are
unchanged and no second request is issued.  Consequently, after every sequence
of events from the initial state at most one request is in flight, and one is
in flight only while `loading` is set. -/
theorem submit_while_loading (s : State) (hloading : s.loading = true) :
    step s Event.clickSubmit = s ∧
    ∀ events : List Event,
      (run State.init events).inFlight.length ≤ 1 ∧
      ((run State.init events).inFlight ≠ [] → (run State.init events).loading = true) := by
  refine ⟨by simp [step, submitDisabled, hloading], ?_⟩
  intro events
  rcases run_oneFlight events State.init init_oneFlight with ⟨hl, hlen⟩ | ⟨_, hnil⟩
  · exact ⟨by omega, fun _ => hl⟩
  · exact ⟨by simp [hnil], fun hne => absurd hnil hne⟩

/-- Witness of C3: a file is selected and submitted; a second click on submit
while the request is in flight leaves the state as it is. -/
theorem submit_while_loading_witness :
    step (run State.init [Event.selectFile (some [newBlob []]) "10:00", Event.clickSubmit])
        Event.clickSubmit =
      run State.init [Event.selectFile (some [newBlob []]) "10:00", Event.clickSubmit] :=
  (submit_while_loading
    (run State.init [Event.selectFile (some [newBlob []]) "10:00", Event.clickSubmit]) rfl).1

/-! ## Capture: stop before the microphone request resolves -/

/-- C4 at its failing input: Record is clicked, Stop is clicked before the
microphone request has resolved, then the request is granted.  After the second
click the recording flag is off and nothing is acquired yet; the cleanup has
already run and found no stream.  After the grant the recording flag is still
off, yet the acquired stream has a live track and its recorder is recording.
With a third click before the grants (Record, Stop, Record, two grants, Stop)
the second grant overwrites the refs, so the first stream stays live after the
final Stop and after teardown as well. -/
theorem stop_before_grant_leaks :
    (run State.init [Event.toggleRecording, Event.toggleRecording]).recording = false ∧
    (run State.init [Event.toggleRecording, Event.toggleRecording]).pendingMic = 1 ∧
    (run State.init
        [Event.toggleRecording, Event.toggleRecording, Event.micGranted]).recording = false ∧
    (run State.init
        [Event.toggleRecording, Event.toggleRecording, Event.micGranted]).streams = [true] ∧
    (run State.init
        [Event.toggleRecording, Event.toggleRecording, Event.micGranted]).recorders =
      [{ stream := 0, state := RecorderState.recording, stopQueued := false }] ∧
    released (run State.init
        [Event.toggleRecording, Event.toggleRecording, Event.micGranted]) = false ∧
    (run State.init
        [Event.toggleRecording, Event.toggleRecording, Event.toggleRecording,
         Event.micGranted, Event.micGranted, Event.toggleRecording,
         Event.teardown]).recording = false ∧
    (run State.init
        [Event.toggleRecording, Event.toggleRecording, Event.toggleRecording,
         Event.micGranted, Event.micGranted, Event.toggleRecording,
         Event.teardown]).streams = [true, false] ∧
    (run State.init
        [Event.toggleRecording, Event.toggleRecording, Event.toggleRecording,
         Event.micGranted, Event.micGranted, Event.toggleRecording,
         Event.teardown]).recorders =
      [{ stream := 0, state := RecorderState.recording, stopQueued := false },
       { stream := 1, state := RecorderState.inactive, stopQueued := true }] := by
  refine ⟨?_, ?_, ?_, ?_, ?_, ?_, ?_, ?_, ?_⟩ <;> rfl

/-! ## Visualization: the audio level -/

theorem foldl_fl_bounds (fl : ℚ → ℚ) (hmono : Monotone fl) (N : ℕ)
    (hexact : ∀ n : ℕ, n ≤ 255 * N → fl n = n) (xs : List Nat) :
    ∀ (acc : ℚ) (k : ℕ), (∀ x ∈ xs, x ≤ 255) → 0 ≤ acc → acc ≤ 255 * (k : ℚ) →
      k + xs.length ≤ N →
      0 ≤ xs.foldl (fun (a : ℚ) (b : ℕ) => fl (a + (b : ℚ))) acc ∧
        xs.foldl (fun (a : ℚ) (b : ℕ) => fl (a + (b : ℚ))) acc ≤ 255 * ((k + xs.length : ℕ) : ℚ) := by
  induction xs with
  | nil =>
    intro acc k _ h0 hk _
    exact ⟨h0, by simpa using hk⟩
  | cons b rest ih =>
    intro acc k hbyte h0 hk hlen
    have hb : (b : ℚ) ≤ 255 := by exact_mod_cast hbyte b (List.mem_cons_self _ _)
    have hb0 : (0 : ℚ) ≤ (b : ℚ) := Nat.cast_nonneg b
    have hlen2 : k + 1 + rest.length ≤ N := by
      simp only [List.length_cons] at hlen
      omega
    have hz : fl 0 = 0 := by
      have := hexact 0 (Nat.zero_le _)
      simpa using this
    have hk1 : fl ((255 * (k + 1) : ℕ) : ℚ) = ((255 * (k + 1) : ℕ) : ℚ) :=
      hexact (255 * (k + 1)) (Nat.mul_le_mul_left 255 (by omega))
    have hlo : 0 ≤ fl (acc + (b : ℚ)) := by
      have := hmono (add_nonneg h0 hb0)
      rw [hz] at this
      exact this
    have hhi : fl (acc + (b : ℚ)) ≤ 255 * ((k + 1 : ℕ) : ℚ) := by
      have hle : acc + (b : ℚ) ≤ ((255 * (k + 1) : ℕ) : ℚ) := by
        push_cast
        linarith
      have := hmono hle
      rw [hk1] at this
      push_cast at this ⊢
      exact this
    have := ih (fl (acc + (b : ℚ))) (k + 1)
      (fun x hx => hbyte x (List.mem_cons_of_mem _ hx)) hlo hhi hlen2
    simp only [List.foldl_cons, List.length_cons]
    have hidx : k + (rest.length + 1) = k + 1 + rest.length := by omega
    rw [hidx]
    exact this

theorem foldl_id_sum (xs : List Nat) :
    ∀ acc : ℚ, xs.foldl (fun (a : ℚ) (b : ℕ) => id (a + (b : ℚ))) acc = acc + ((xs.sum : ℕ) : ℚ) := by
  induction xs with
  | nil => intro acc; simp
  | cons b rest ih =>
    intro acc
    simp only [List.foldl_cons, List.sum_cons, id]
    have := ih (acc + (b : ℚ))
    simp only [id] at this
    rw [this]
    push_cast
    ring

/-- C10: for every non-empty array of byte samples (each in 0..255), the level
`updateAudioLevel` computes is defined and lies in the closed interval [0,1].
This holds for every rounding `fl` of the number type that is monotone and exact
on the natural numbers up to 255 times the length of the array; with exact
arithmetic (`fl` the identity) the level is the arithmetic mean of the samples
divided by 255. -/
theorem audioLevel_in_unit_interval (fl : ℚ → ℚ) (dataArray : List Nat)
    (hne : dataArray ≠ []) (hbyte : ∀ x ∈ dataArray, x ≤ 255)
    (hmono : Monotone fl) (hexact : ∀ n : ℕ, n ≤ 255 * dataArray.length → fl n = n) :
    (∃ level, updateAudioLevel fl dataArray = some level ∧ 0 ≤ level ∧ level ≤ 1) ∧
    updateAudioLevel id dataArray =
      some (((dataArray.sum : ℕ) : ℚ) / (dataArray.length : ℚ) / 255) := by
  cases dataArray with
  | nil => exact absurd rfl hne
  | cons x xs =>
    have hlenpos : (0 : ℚ) < (((x :: xs).length : ℕ) : ℚ) := by
      simp only [List.length_cons]
      exact_mod_cast Nat.succ_pos _
    have hz : fl 0 = 0 := by
      have := hexact 0 (Nat.zero_le _)
      simpa using this
    have h1 : fl 1 = 1 := by
      have := hexact 1 (by simp only [List.length_cons]; omega)
      simpa using this
    have h255 : fl 255 = 255 := by
      have := hexact 255 (by simp only [List.length_cons]; omega)
      simpa using this
    have hx : (x : ℚ) ≤ 255 * ((1 : ℕ) : ℚ) := by
      have := hbyte x (List.mem_cons_self _ _)
      have : (x : ℚ) ≤ 255 := by exact_mod_cast this
      simpa using this
    obtain ⟨hs0, hs1⟩ := foldl_fl_bounds fl hmono (x :: xs).length hexact xs (x : ℚ) 1
      (fun y hy => hbyte y (List.mem_cons_of_mem _ hy)) (Nat.cast_nonneg x) hx
      (by simp only [List.length_cons]; omega)
    have hlen_eq : (((1 + xs.length : ℕ)) : ℚ) = (((x :: xs).length : ℕ) : ℚ) := by
      simp only [List.length_cons]
      push_cast
      ring
    rw [hlen_eq] at hs1
    have ha0 : 0 ≤ fl (xs.foldl (fun (a : ℚ) (b : ℕ) => fl (a + (b : ℚ))) (x : ℚ) /
        (((x :: xs).length : ℕ) : ℚ)) := by
      have := hmono (div_nonneg hs0 hlenpos.le)
      rw [hz] at this
      exact this
    have ha1 : fl (xs.foldl (fun (a : ℚ) (b : ℕ) => fl (a + (b : ℚ))) (x : ℚ) /
        (((x :: xs).length : ℕ) : ℚ)) ≤ 255 := by
      have hle : xs.foldl (fun (a : ℚ) (b : ℕ) => fl (a + (b : ℚ))) (x : ℚ) /
          (((x :: xs).length : ℕ) : ℚ) ≤ 255 := by
        rw [div_le_iff₀ hlenpos]
        exact hs1
      have := hmono hle
      rw [h255] at this
      exact this
    refine ⟨⟨_, rfl, ?_, ?_⟩, ?_⟩
    · have := hmono (div_nonneg ha0 (by norm_num : (0 : ℚ) ≤ 255))
      rw [hz] at this
      exact this
    · have hle : fl (xs.foldl (fun (a : ℚ) (b : ℕ) => fl (a + (b : ℚ))) (x : ℚ) /
          (((x :: xs).length : ℕ) : ℚ)) / 255 ≤ 1 := by
        rw [div_le_iff₀ (by norm_num : (0 : ℚ) < 255)]
        linarith
      have := hmono hle
      rw [h1] at this
      exact this
    · simp only [updateAudioLevel, id, List.sum_cons]
      have := foldl_id_sum xs (x : ℚ)
      simp only [id] at this
      rw [this]
      push_cast
      rfl

/-- Witness of C10: three samples, exact arithmetic. -/
theorem audioLevel_in_unit_interval_witness :
    (∃ level, updateAudioLevel id [0, 255, 128] = some level ∧ 0 ≤ level ∧ level ≤ 1) ∧
    updateAudioLevel id [0, 255, 128] =
      some ((([0, 255, 128].sum : ℕ) : ℚ) / (([0, 255, 128] : List Nat).length : ℚ) / 255) :=
  audioLevel_in_unit_interval id [0, 255, 128] (by decide) (by decide) monotone_id
    (fun _ _ => rfl)

end App
